import Mathlib

/-!
Verification of the nepse-api FastAPI service (src/main.py) against its
natural-language specification.

The development shallowly embeds the two pieces of logic the spec singles
out: the token-bucket rate-limiting middleware and the statistics
aggregator behind the trade-turnover-transaction-subindices route, plus
the two symbol routes with their exception handling.  Python dicts are
modelled as association lists with in-place overwrite (the semantics of
a dict built by repeated assignment), numbers coming from upstream JSON
as rationals, and Python exceptions as an Except monad.
-/

namespace Nepse

/-- Model of a Python dict with string keys: an association list whose
keys stay unique because every write goes through dinsert. -/
abbrev AList (V : Type) : Type := List (String × V)

namespace AList

variable {V : Type}

/-- Model of the assignment d[k] = v: overwrite the binding in place if
the key is present, append a fresh binding at the end otherwise. -/
def dinsert (d : AList V) (k : String) (v : V) : AList V :=
  match d with
  | [] => [(k, v)]
  | p :: rest => if p.1 = k then (k, v) :: rest else p :: dinsert rest k v

/-- Model of the read d.get(k): the value bound to the key, if any. -/
def dget? (d : AList V) (k : String) : Option V :=
  match d with
  | [] => none
  | p :: rest => if p.1 = k then some p.2 else dget? rest k

/-- The keys of the dict, in insertion order. -/
def keys (d : AList V) : List String := d.map Prod.fst

/-- Model of the test k in d.keys(). -/
def containsKey (d : AList V) (k : String) : Bool := (dget? d k).isSome

/-- Model of the read d[k], which raises KeyError(k) on a missing key. -/
def dget (d : AList V) (k : String) : Except String V :=
  match dget? d k with
  | some v => Except.ok v
  | none => Except.error k

theorem keys_cons {p : String × V} {rest : AList V} :
    keys (p :: rest) = p.1 :: keys rest := rfl

theorem dget?_eq_none_of_not_mem_keys {d : AList V} {k : String}
    (h : k ∉ keys d) : dget? d k = none := by
  induction d with
  | nil => rfl
  | cons p rest ih =>
      rw [keys_cons, List.mem_cons, not_or] at h
      rw [dget?, if_neg (fun hh => h.1 hh.symm)]
      exact ih h.2

theorem mem_keys_of_dget?_eq_some {d : AList V} {k : String} {v : V}
    (h : dget? d k = some v) : k ∈ keys d := by
  by_contra hk
  rw [dget?_eq_none_of_not_mem_keys hk] at h
  exact Option.noConfusion h

theorem isSome_dget?_of_mem_keys {d : AList V} {k : String} (h : k ∈ keys d) :
    (dget? d k).isSome = true := by
  induction d with
  | nil => simp [keys] at h
  | cons p rest ih =>
      by_cases hp : p.1 = k
      · rw [dget?, if_pos hp]
        rfl
      · rw [dget?, if_neg hp]
        rw [keys_cons, List.mem_cons] at h
        rcases h with h | h
        · exact absurd h.symm hp
        · exact ih h

theorem containsKey_iff_mem_keys {d : AList V} {k : String} :
    containsKey d k = true ↔ k ∈ keys d := by
  constructor
  · intro h
    rcases Option.isSome_iff_exists.mp h with ⟨v, hv⟩
    exact mem_keys_of_dget?_eq_some hv
  · intro h
    exact isSome_dget?_of_mem_keys h

theorem mem_of_dget?_eq_some {d : AList V} {k : String} {v : V}
    (h : dget? d k = some v) : (k, v) ∈ d := by
  induction d with
  | nil => exact Option.noConfusion h
  | cons p rest ih =>
      rw [dget?] at h
      by_cases hp : p.1 = k
      · rw [if_pos hp] at h
        have hv : p.2 = v := Option.some.inj h
        have hpkv : p = (k, v) := by
          cases p
          simp only [Prod.mk.injEq]
          exact ⟨hp, hv⟩
        rw [← hpkv]
        exact List.mem_cons_self p rest
      · rw [if_neg hp] at h
        exact List.mem_cons_of_mem _ (ih h)

theorem dget?_dinsert_self (d : AList V) (k : String) (v : V) :
    dget? (dinsert d k v) k = some v := by
  induction d with
  | nil =>
      rw [dinsert, dget?, if_pos rfl]
  | cons p rest ih =>
      by_cases hp : p.1 = k
      · rw [dinsert, if_pos hp, dget?, if_pos rfl]
      · rw [dinsert, if_neg hp, dget?, if_neg hp]
        exact ih

theorem dget?_dinsert_ne {a k : String} (d : AList V) (v : V) (h : a ≠ k) :
    dget? (dinsert d k v) a = dget? d a := by
  induction d with
  | nil =>
      show dget? [(k, v)] a = none
      rw [dget?, if_neg (fun hh : k = a => h hh.symm)]
      rfl
  | cons p rest ih =>
      by_cases hp : p.1 = k
      · rw [dinsert, if_pos hp, dget?, if_neg (fun hh => h hh.symm), dget?,
          if_neg (fun hpa : p.1 = a => h (hpa.symm.trans hp))]
      · rw [dinsert, if_neg hp, dget?, dget?]
        by_cases hpa : p.1 = a
        · rw [if_pos hpa, if_pos hpa]
        · rw [if_neg hpa, if_neg hpa]
          exact ih

theorem mem_keys_dinsert {a k : String} {d : AList V} {v : V} :
    a ∈ keys (dinsert d k v) ↔ a ∈ keys d ∨ a = k := by
  induction d with
  | nil => simp [dinsert, keys]
  | cons p rest ih =>
      by_cases hp : p.1 = k
      · rw [dinsert, if_pos hp, keys_cons, keys_cons, List.mem_cons, List.mem_cons]
        constructor
        · rintro (h | h)
          · exact Or.inr h
          · exact Or.inl (Or.inr h)
        · rintro ((h | h) | h)
          · exact Or.inl (h.trans hp)
          · exact Or.inr h
          · exact Or.inl h
      · rw [dinsert, if_neg hp, keys_cons, keys_cons, List.mem_cons, List.mem_cons]
        constructor
        · rintro (h | h)
          · exact Or.inl (Or.inl h)
          · rcases ih.mp h with h | h
            · exact Or.inl (Or.inr h)
            · exact Or.inr h
        · rintro ((h | h) | h)
          · exact Or.inl h
          · exact Or.inr (ih.mpr (Or.inl h))
          · exact Or.inr (ih.mpr (Or.inr h))

theorem nodup_keys_dinsert {d : AList V} (k : String) (v : V)
    (h : (keys d).Nodup) : (keys (dinsert d k v)).Nodup := by
  induction d with
  | nil => simp [dinsert, keys]
  | cons p rest ih =>
      rw [keys_cons, List.nodup_cons] at h
      by_cases hp : p.1 = k
      · rw [dinsert, if_pos hp, keys_cons, List.nodup_cons]
        exact ⟨fun hc => h.1 (hp ▸ hc), h.2⟩
      · rw [dinsert, if_neg hp, keys_cons, List.nodup_cons]
        refine ⟨fun hc => ?_, ih h.2⟩
        rcases mem_keys_dinsert.mp hc with hc | hc
        · exact h.1 hc
        · exact hp hc

end AList

open AList

/-- Model of a dict comprehension keyed by a field of each element, as in
companies = dict with company[quoted symbol] mapped to company for company
in the fetched list (src/main.py lines 403-411): repeated assignment, so a
later element with the same key overwrites an earlier one. -/
def dictOfList {α : Type} (key : α → String) (l : List α) : AList α :=
  l.foldl (fun acc x => dinsert acc (key x) x) []

theorem dictOfList_append_singleton {α : Type} (key : α → String)
    (l : List α) (x : α) :
    dictOfList key (l ++ [x]) = dinsert (dictOfList key l) (key x) x := by
  unfold dictOfList
  rw [List.foldl_append]
  rfl

theorem dget?_dictOfList {α : Type} (key : α → String) (l : List α)
    (a : String) :
    dget? (dictOfList key l) a = l.reverse.find? (fun x => key x == a) := by
  induction l using List.reverseRecOn with
  | nil => rfl
  | append_singleton l x ih =>
      rw [dictOfList_append_singleton, List.reverse_append, List.reverse_singleton,
        List.singleton_append, List.find?_cons]
      by_cases hx : key x = a
      · rw [beq_iff_eq.mpr hx]
        show dget? (dinsert (dictOfList key l) (key x) x) a = some x
        rw [← hx, dget?_dinsert_self]
      · rw [beq_eq_false_iff_ne.mpr hx]
        show dget? (dinsert (dictOfList key l) (key x) x) a =
          List.find? (fun x => key x == a) l.reverse
        rw [dget?_dinsert_ne _ _ (fun hh => hx hh.symm), ih]

theorem mem_keys_dictOfList {α : Type} (key : α → String) (l : List α)
    (a : String) :
    a ∈ keys (dictOfList key l) ↔ a ∈ l.map key := by
  induction l using List.reverseRecOn with
  | nil => simp [dictOfList, keys]
  | append_singleton l x ih =>
      rw [dictOfList_append_singleton, List.map_append, List.map_singleton]
      rw [mem_keys_dinsert, ih]
      simp

theorem nodup_keys_dictOfList {α : Type} (key : α → String) (l : List α) :
    (keys (dictOfList key l)).Nodup := by
  induction l using List.reverseRecOn with
  | nil => simp [dictOfList, keys]
  | append_singleton l x ih =>
      rw [dictOfList_append_singleton]
      exact nodup_keys_dinsert _ _ ih

theorem dinsert_eq_append_of_not_mem {V : Type} {d : AList V} {k : String}
    (v : V) (h : k ∉ keys d) : dinsert d k v = d ++ [(k, v)] := by
  induction d with
  | nil => rfl
  | cons p rest ih =>
      rw [keys_cons, List.mem_cons, not_or] at h
      rw [dinsert, if_neg (fun hh => h.1 hh.symm), List.cons_append]
      rw [ih h.2]

/-- When the key field is injective on the list, building the dict never
overwrites, so the dict is just the list of key-value pairs in order. -/
theorem dictOfList_of_nodup {α : Type} (key : α → String) (l : List α)
    (h : (l.map key).Nodup) :
    dictOfList key l = l.map (fun x => (key x, x)) := by
  induction l using List.reverseRecOn with
  | nil => rfl
  | append_singleton l x ih =>
      rw [List.map_append, List.map_singleton] at h
      have hnd : (l.map key).Nodup := (List.nodup_append.mp h).1
      have hx : key x ∉ l.map key := by
        intro hc
        rcases List.nodup_append.mp h with ⟨-, -, hdisj⟩
        exact hdisj hc (List.mem_singleton_self _)
      rw [dictOfList_append_singleton, ih hnd,
        dinsert_eq_append_of_not_mem _ (by
          rw [keys, List.map_map]
          simpa using hx),
        List.map_append]
      rfl

/-- Model of the set comprehension over sector names (src/main.py line
477).  A CPython set iterates in hash order; the claims proved below do
not depend on the order, and the model fixes first-occurrence order. -/
def distinct (l : List String) : List String :=
  l.foldl (fun acc s => if s ∈ acc then acc else acc ++ [s]) []

theorem mem_foldl_distinct (l : List String) :
    ∀ (acc : List String) (a : String),
      a ∈ l.foldl (fun acc s => if s ∈ acc then acc else acc ++ [s]) acc ↔
        a ∈ acc ∨ a ∈ l := by
  induction l with
  | nil => simp
  | cons x l ih =>
      intro acc a
      rw [List.foldl_cons, ih, List.mem_cons]
      by_cases hx : x ∈ acc
      · rw [if_pos hx]
        constructor
        · rintro (h | h)
          · exact Or.inl h
          · exact Or.inr (Or.inr h)
        · rintro (h | h | h)
          · exact Or.inl h
          · exact Or.inl (h ▸ hx)
          · exact Or.inr h
      · rw [if_neg hx]
        simp only [List.mem_append, List.mem_singleton]
        tauto

theorem mem_distinct {l : List String} {a : String} :
    a ∈ distinct l ↔ a ∈ l := by
  rw [distinct, mem_foldl_distinct]
  simp

theorem nodup_foldl_distinct (l : List String) :
    ∀ acc : List String, acc.Nodup →
      (l.foldl (fun acc s => if s ∈ acc then acc else acc ++ [s]) acc).Nodup := by
  induction l with
  | nil => exact fun acc h => h
  | cons x l ih =>
      intro acc hacc
      rw [List.foldl_cons]
      by_cases hx : x ∈ acc
      · rw [if_pos hx]
        exact ih acc hacc
      · rw [if_neg hx]
        refine ih _ ?_
        simpa [List.nodup_append] using ⟨hacc, hx⟩

theorem nodup_distinct (l : List String) : (distinct l).Nodup :=
  nodup_foldl_distinct l [] List.nodup_nil

/-! Data model of the upstream snapshots consumed by
get_trade_turnover_transaction_subindices (src/main.py lines 402-411).
Each structure keeps exactly the fields the aggregator reads; numeric
JSON values are modelled as rationals. -/

/-- An element of nepse.getCompanyList(); the aggregator reads only the
symbol and sectorName fields. -/
structure Company where
  symbol : String
  sectorName : String
deriving DecidableEq, Repr

/-- An element of nepse.getTopTenTurnoverScrips(). -/
structure TurnoverEntry where
  symbol : String
  turnover : ℚ
deriving DecidableEq, Repr

/-- An element of nepse.getTopTenTransactionScrips(). -/
structure TransactionEntry where
  symbol : String
  totalTrades : ℚ
deriving DecidableEq, Repr

/-- An element of nepse.getTopTenTradeScrips(). -/
structure TradeEntry where
  symbol : String
  shareTraded : ℚ
deriving DecidableEq, Repr

/-- An element of nepse.getTopGainers() or nepse.getTopLosers(). -/
structure GainerLoserEntry where
  symbol : String
  pointChange : ℚ
  percentageChange : ℚ
  ltp : ℚ
deriving DecidableEq, Repr

/-- An element of nepse.getPriceVolume(); its dict is built on line 411
and never read afterwards. -/
structure PriceVolumeEntry where
  symbol : String
deriving DecidableEq, Repr

/-- An element of nepse.getNepseSubIndices(): a sub-index record keyed by
its display label, stored verbatim into the sector record; the payload
beyond the label is opaque to the aggregator and modelled as one value. -/
structure SubIndexEntry where
  index : String
  currentValue : ℚ
deriving DecidableEq, Repr

/-- The per-symbol record built by the aggregator loop body
(src/main.py lines 433-474), written as the company_details dict. -/
structure ScripDetails where
  symbol : String
  sectorName : String
  totalTurnover : ℚ
  totalTrades : ℚ
  totalTradeQuantity : ℚ
  pointChange : ℚ
  percentageChange : ℚ
  ltp : ℚ
deriving DecidableEq, Repr

/-- The per-sector record built on src/main.py lines 486-492. -/
structure SectorDetails where
  totalTrades : ℚ
  totalTradeQuantity : ℚ
  totalTurnover : ℚ
  index : SubIndexEntry
  sectorName : String
deriving DecidableEq, Repr

/-- The response of the aggregator route (src/main.py line 494). -/
structure AggOutput where
  scripsDetails : AList ScripDetails
  sectorsDetails : AList SectorDetails
deriving DecidableEq, Repr

/-- The six upstream snapshots fetched at the start of the aggregator
route, plus the price-volume and sub-index feeds. -/
structure AggInput where
  companyList : List Company
  turnoverList : List TurnoverEntry
  transactionList : List TransactionEntry
  tradeList : List TradeEntry
  gainersList : List GainerLoserEntry
  losersList : List GainerLoserEntry
  priceVolumeList : List PriceVolumeEntry
  subIndicesList : List SubIndexEntry
deriving DecidableEq, Repr

/-- The fixed sector-name to sub-index-label table (src/main.py lines
415-429). -/
def sector_mapper : AList String :=
  [("Commercial Banks", "Banking SubIndex"),
   ("Development Banks", "Development Bank Index"),
   ("Finance", "Finance Index"),
   ("Hotels And Tourism", "Hotels And Tourism Index"),
   ("Hydro Power", "HydroPower Index"),
   ("Investment", "Investment Index"),
   ("Life Insurance", "Life Insurance"),
   ("Manufacturing And Processing", "Manufacturing And Processing"),
   ("Microfinance", "Microfinance Index"),
   ("Mutual Fund", "Mutual Fund"),
   ("Non Life Insurance", "Non Life Insurance"),
   ("Others", "Others Index"),
   ("Tradings", "Trading Index")]

/-- The companies dict of src/main.py line 403. -/
def companiesDict (inp : AggInput) : AList Company :=
  dictOfList (fun c => c.symbol) inp.companyList

/-- The turnover dict of src/main.py line 404. -/
def turnoverDict (inp : AggInput) : AList TurnoverEntry :=
  dictOfList (fun o => o.symbol) inp.turnoverList

/-- The transaction dict of src/main.py line 405. -/
def transactionDict (inp : AggInput) : AList TransactionEntry :=
  dictOfList (fun o => o.symbol) inp.transactionList

/-- The trade dict of src/main.py line 406. -/
def tradeDict (inp : AggInput) : AList TradeEntry :=
  dictOfList (fun o => o.symbol) inp.tradeList

/-- The gainers dict of src/main.py line 408. -/
def gainersDict (inp : AggInput) : AList GainerLoserEntry :=
  dictOfList (fun o => o.symbol) inp.gainersList

/-- The losers dict of src/main.py line 409. -/
def losersDict (inp : AggInput) : AList GainerLoserEntry :=
  dictOfList (fun o => o.symbol) inp.losersList

/-- The price_vol_info dict of src/main.py line 411, built and unused. -/
def priceVolDict (inp : AggInput) : AList PriceVolumeEntry :=
  dictOfList (fun o => o.symbol) inp.priceVolumeList

/-- The helper _get_nepse_sub_indices (src/main.py lines 195-199): the
sub-index records keyed by their index label. -/
def subIndicesDict (inp : AggInput) : AList SubIndexEntry :=
  dictOfList (fun o => o.index) inp.subIndicesList

/-- The totalTurnover expression of src/main.py lines 437-439: the
turnover value when the symbol is a key of the turnover dict, else 0.  A
failed dict subscript surfaces as Except.error carrying the missing key,
as a Python KeyError would. -/
def turnover_field (turnover : AList TurnoverEntry) (symbol : String) :
    Except String ℚ :=
  if containsKey turnover symbol then do
    pure (← dget turnover symbol).turnover
  else pure 0

/-- The totalTrades expression of src/main.py lines 440-442. -/
def trades_field (transaction : AList TransactionEntry) (symbol : String) :
    Except String ℚ :=
  if containsKey transaction symbol then do
    pure (← dget transaction symbol).totalTrades
  else pure 0

/-- The totalTradeQuantity expression of src/main.py lines 443-445: it
subscripts the trade dict while testing membership in the transaction
dict, exactly as the source does. -/
def trade_quantity_field (transaction : AList TransactionEntry)
    (trade : AList TradeEntry) (symbol : String) : Except String ℚ :=
  if containsKey transaction symbol then do
    pure (← dget trade symbol).shareTraded
  else pure 0

/-- The pointChange, percentageChange, ltp triple of src/main.py lines
447-472: from the gainers dict when the symbol is a key there, else from
the losers dict when a key there, else zeroes. -/
def changes_field (gainers losers : AList GainerLoserEntry)
    (symbol : String) : Except String (ℚ × ℚ × ℚ) :=
  if containsKey gainers symbol then do
    pure ((← dget gainers symbol).pointChange,
      (← dget gainers symbol).percentageChange,
      (← dget gainers symbol).ltp)
  else if containsKey losers symbol then do
    pure ((← dget losers symbol).pointChange,
      (← dget losers symbol).percentageChange,
      (← dget losers symbol).ltp)
  else pure (0, 0, 0)

/-- The body of the per-company loop (src/main.py lines 432-474),
building company_details for one symbol from the field expressions
above. -/
def build_company_details (turnover : AList TurnoverEntry)
    (transaction : AList TransactionEntry) (trade : AList TradeEntry)
    (gainers losers : AList GainerLoserEntry)
    (symbol : String) (company : Company) : Except String ScripDetails := do
  let totalTurnover ← turnover_field turnover symbol
  let totalTrades ← trades_field transaction symbol
  let totalTradeQuantity ← trade_quantity_field transaction trade symbol
  let changes ← changes_field gainers losers symbol
  pure { symbol := symbol
         sectorName := company.sectorName
         totalTurnover := totalTurnover
         totalTrades := totalTrades
         totalTradeQuantity := totalTradeQuantity
         pointChange := changes.1
         percentageChange := changes.2.1
         ltp := changes.2.2 }

/-- The scrips_details dict built by the loop on src/main.py lines
431-474. -/
def scripsFold (inp : AggInput) : Except String (AList ScripDetails) :=
  (companiesDict inp).foldlM
    (fun acc p => do
      let cd ← build_company_details (turnoverDict inp) (transactionDict inp)
        (tradeDict inp) (gainersDict inp) (losersDict inp) p.1 p.2
      pure (dinsert acc p.1 cd))
    []

/-- The sectors set of src/main.py line 477: the sector names of the
companies dict values. -/
def sectorsOf (inp : AggInput) : List String :=
  distinct (((companiesDict inp).map Prod.snd).map (fun c => c.sectorName))

/-- The running totals of the inner loop on src/main.py lines 479-484:
total_trades, total_trade_quantity and total_turnover summed over the
scrips records of the given sector. -/
def sector_totals (scrips_details : AList ScripDetails) (sector : String) :
    ℚ × ℚ × ℚ :=
  (scrips_details.map Prod.snd).foldl
    (fun t r =>
      if r.sectorName = sector then
        (t.1 + r.totalTrades, t.2.1 + r.totalTradeQuantity,
          t.2.2 + r.totalTurnover)
      else t)
    (0, 0, 0)

/-- The sector record built on src/main.py lines 486-492, including the
two chained dict subscripts for the sub-index value; either of them can
raise a KeyError. -/
def sector_record (scrips_details : AList ScripDetails)
    (sector_sub_indices : AList SubIndexEntry) (sector : String) :
    Except String SectorDetails := do
  let t := sector_totals scrips_details sector
  let label ← dget sector_mapper sector
  let idx ← dget sector_sub_indices label
  pure { totalTrades := t.1
         totalTradeQuantity := t.2.1
         totalTurnover := t.2.2
         index := idx
         sectorName := sector }

/-- The sector_details dict built by the loop on src/main.py lines
476-492. -/
def sectorsFold (inp : AggInput) (scrips_details : AList ScripDetails) :
    Except String (AList SectorDetails) :=
  (sectorsOf inp).foldlM
    (fun acc sector => do
      let r ← sector_record scrips_details (subIndicesDict inp) sector
      pure (dinsert acc sector r))
    []

/-- The aggregator route handler get_trade_turnover_transaction_subindices
(src/main.py lines 402-494): join the snapshots by symbol, then group by
sector, returning the two dicts; any KeyError aborts the whole request. -/
def get_trade_turnover_transaction_subindices (inp : AggInput) :
    Except String AggOutput := do
  let _price_vol_info := priceVolDict inp
  let scrips_details ← scripsFold inp
  let sector_details ← sectorsFold inp scrips_details
  pure { scripsDetails := scrips_details, sectorsDetails := sector_details }

/-! Exception handling of the two symbol routes (src/main.py lines
298-311 and 370-387). -/

/-- The Python exceptions relevant to the two symbol handlers.  The
httpException constructor models fastapi.HTTPException, which derives
from Exception and is therefore caught by a bare except-Exception
clause; jsonDecodeError models json.JSONDecodeError. -/
inductive PyExc where
  | jsonDecodeError (msg : String)
  | httpException (status : Nat) (detail : String)
  | other (msg : String)
deriving DecidableEq, Repr

/-- Model of Python str(e): starlette renders an HTTPException as its
status code, a colon and the detail. -/
def excStr : PyExc → String
  | PyExc.jsonDecodeError msg => msg
  | PyExc.httpException status detail => toString status ++ ": " ++ detail
  | PyExc.other msg => msg

/-- What a route handler produces: a payload, or an HTTPException with a
status code and a detail string. -/
inductive HandlerOutcome (α : Type) where
  | ok (a : α)
  | httpError (status : Nat) (detail : String)
deriving DecidableEq, Repr

/-- The status code of the HTTPException surfaced by a handler, if any. -/
def statusOf {α : Type} : HandlerOutcome α → Option Nat
  | HandlerOutcome.ok _ => none
  | HandlerOutcome.httpError status _ => some status

/-- The detail string of the HTTPException surfaced by a handler, if
any. -/
def detailOf {α : Type} : HandlerOutcome α → Option String
  | HandlerOutcome.ok _ => none
  | HandlerOutcome.httpError _ detail => some detail

/-- The handler get_daily_scrip_price_graph (src/main.py lines 305-311):
return the upstream result, turning any exception whatsoever into a 404
naming the symbol and the exception text.  The upstream call
nepse.getDailyScripPriceGraph(symbol) is passed as its outcome. -/
def get_daily_scrip_price_graph {α : Type} (symbol : String)
    (upstream : Except PyExc α) : HandlerOutcome α :=
  match upstream with
  | Except.ok data => HandlerOutcome.ok data
  | Except.error e =>
      HandlerOutcome.httpError 404
        ("Data for symbol " ++ symbol ++ " not found: " ++ excStr e)

/-- The body of the try block of get_market_depth (src/main.py lines
379-383): fetch the data, raising HTTPException(404) when the upstream
returns None.  The upstream call nepse.getSymbolMarketDepth(symbol) is
passed as its outcome, with a None result modelled as Option.none. -/
def market_depth_try {α : Type} (symbol : String)
    (upstream : Except PyExc (Option α)) : Except PyExc α :=
  match upstream with
  | Except.error e => Except.error e
  | Except.ok none =>
      Except.error (PyExc.httpException 404
        ("Market depth for " ++ symbol ++ " not available"))
  | Except.ok (some data) => Except.ok data

/-- The handler get_market_depth (src/main.py lines 376-387): the try
block above, then the two except clauses in source order.  A
JSONDecodeError becomes a 404; every other exception, including the
HTTPException(404) raised inside the try block itself, falls through to
the except-Exception clause and becomes a 500. -/
def get_market_depth {α : Type} (symbol : String)
    (upstream : Except PyExc (Option α)) : HandlerOutcome α :=
  match market_depth_try symbol upstream with
  | Except.ok data => HandlerOutcome.ok data
  | Except.error (PyExc.jsonDecodeError _) =>
      HandlerOutcome.httpError 404 ("Invalid data received for " ++ symbol)
  | Except.error e =>
      HandlerOutcome.httpError 500
        ("Error fetching market depth: " ++ excStr e)

/-! The rate-limiting middleware (src/main.py lines 92-109). -/

/-- RateLimiterMiddleware.dispatch (src/main.py lines 97-103): draw one
token from the shared bucket; on success run the wrapped handler on the
request, otherwise raise HTTPException(429).  The bucket type and its
take_token method are parameters, mirroring the middleware holding an
arbitrary bucket object; the returned pair also carries the bucket state
left behind by the single take_token call. -/
def dispatch {B R A : Type} (take_token : B → Bool × B) (bucket : B)
    (call_next : R → A) (request : R) : HandlerOutcome A × B :=
  let drawn := take_token bucket
  if drawn.1 then (HandlerOutcome.ok (call_next request), drawn.2)
  else (HandlerOutcome.httpError 429 "Rate limit exceeded", drawn.2)

/-- Modelled from the spec: the TokenBucket class is imported from the
token_bucket module, which is not among the sources; its state and
take_token algorithm follow spec sections 3 and 4.1 (state capacity,
tokens, refill_rate, last_refill; lazy refill capped at capacity, then
conditional decrement).  Clock values and token counts are rationals. -/
structure TokenBucket where
  capacity : ℚ
  tokens : ℚ
  refill_rate : ℚ
  last_refill : ℚ
deriving DecidableEq, Repr

/-- Modelled from the spec: take_token at clock value now.  Compute the
elapsed time since last_refill, add elapsed times refill_rate tokens
capped at capacity, update last_refill; if at least one token is
available, consume it and return true, else return false. -/
def take_token (now : ℚ) (b : TokenBucket) : Bool × TokenBucket :=
  let elapsed := now - b.last_refill
  let refilled := min b.capacity (b.tokens + elapsed * b.refill_rate)
  if 1 ≤ refilled then
    (true, { b with tokens := refilled - 1, last_refill := now })
  else
    (false, { b with tokens := refilled, last_refill := now })

/-- The bucket created on src/main.py line 106, at clock value 0:
capacity 4 and refill rate 2 tokens per second. -/
def bucket : TokenBucket :=
  { capacity := 4, tokens := 4, refill_rate := 2, last_refill := 0 }

/-- A drained variant of the bucket, with no token left. -/
def drainedBucket : TokenBucket :=
  { capacity := 4, tokens := 0, refill_rate := 2, last_refill := 0 }

/-- A half-full variant of the bucket, last refilled at clock 0. -/
def halfBucket : TokenBucket :=
  { capacity := 4, tokens := 2, refill_rate := 2, last_refill := 0 }

/-- A burst of n take_token calls at a fixed clock value (zero elapsed
time between calls), returning the list of results and every bucket
state observed after each call. -/
def takeBurst (now : ℚ) (b : TokenBucket) : Nat → List Bool × List TokenBucket
  | 0 => ([], [])
  | n + 1 =>
      let drawn := take_token now b
      let rest := takeBurst now drawn.2 n
      (drawn.1 :: rest.1, drawn.2 :: rest.2)

/-! General lemmas about the dict-building loops. -/

theorem except_bind_ok {ε α β : Type} {m : Except ε α} {f : α → Except ε β}
    {b : β} :
    m >>= f = Except.ok b ↔ ∃ a, m = Except.ok a ∧ f a = Except.ok b := by
  cases m with
  | error e =>
      constructor
      · intro h
        exact Except.noConfusion h
      · rintro ⟨a, ha, -⟩
        exact Except.noConfusion ha
  | ok a =>
      constructor
      · intro h
        exact ⟨a, rfl, h⟩
      · rintro ⟨a2, ha, hf⟩
        cases Except.ok.inj ha
        exact hf

/-- A dict-building loop that succeeds ran its body to success on every
element of the list. -/
theorem foldlM_dinsert_ok {α γ : Type} (g : α → Except String γ)
    (k : α → String) (l : List α) :
    ∀ (init sd : AList γ),
      l.foldlM (fun acc x => do
        let y ← g x
        pure (dinsert acc (k x) y)) init = Except.ok sd →
      ∀ x ∈ l, ∃ y, g x = Except.ok y := by
  induction l with
  | nil =>
      intro init sd h x hx
      exact absurd hx (List.not_mem_nil x)
  | cons z l ih =>
      intro init sd h x hx
      rw [List.foldlM_cons] at h
      rcases except_bind_ok.mp h with ⟨acc, hstep, hrest⟩
      rcases except_bind_ok.mp hstep with ⟨y, hy, hacc⟩
      rcases List.mem_cons.mp hx with hx | hx
      · exact ⟨y, hx ▸ hy⟩
      · exact ih _ _ hrest x hx

/-- Full characterisation of a successful dict-building loop: keys of the
result, preservation of unrelated bindings, nodup keys, and, when the
written keys are distinct, the binding produced for every element. -/
theorem foldlM_dinsert_get {α γ : Type} (g : α → Except String γ)
    (k : α → String) (l : List α) :
    ∀ (init sd : AList γ),
      l.foldlM (fun acc x => do
        let y ← g x
        pure (dinsert acc (k x) y)) init = Except.ok sd →
      ((∀ a, a ∉ l.map k → dget? sd a = dget? init a) ∧
       (∀ a, a ∈ keys sd ↔ a ∈ keys init ∨ a ∈ l.map k) ∧
       ((keys init).Nodup → (keys sd).Nodup) ∧
       ((l.map k).Nodup →
         ∀ x ∈ l, ∃ y, g x = Except.ok y ∧ dget? sd (k x) = some y)) := by
  induction l with
  | nil =>
      intro init sd h
      have hsd : sd = init := (Except.ok.inj h).symm
      subst hsd
      refine ⟨fun a _ => rfl, fun a => by simp, fun h => h, ?_⟩
      intro _ x hx
      exact absurd hx (List.not_mem_nil x)
  | cons z l ih =>
      intro init sd h
      rw [List.foldlM_cons] at h
      rcases except_bind_ok.mp h with ⟨acc, hstep, hrest⟩
      rcases except_bind_ok.mp hstep with ⟨y, hy, hacc⟩
      have hacc2 : acc = dinsert init (k z) y := (Except.ok.inj hacc).symm
      subst hacc2
      rcases ih _ _ hrest with ⟨ih1, ih2, ih3, ih4⟩
      refine ⟨?_, ?_, ?_, ?_⟩
      · intro a ha
        rw [List.map_cons, List.mem_cons, not_or] at ha
        rw [ih1 a ha.2, dget?_dinsert_ne _ _ ha.1]
      · intro a
        rw [ih2 a, mem_keys_dinsert, List.map_cons, List.mem_cons]
        tauto
      · intro hnd
        exact ih3 (nodup_keys_dinsert _ _ hnd)
      · intro hnd x hx
        rw [List.map_cons, List.nodup_cons] at hnd
        rcases List.mem_cons.mp hx with hx | hx
        · subst hx
          refine ⟨y, hy, ?_⟩
          rw [ih1 (k x) hnd.1, dget?_dinsert_self]
        · exact ih4 hnd.2 x hx

/-! Bridges between membership tests and lookups. -/

theorem dget?_eq_none_of_containsKey_false {V : Type} {d : AList V}
    {k : String} (h : containsKey d k = false) : dget? d k = none := by
  rcases ho : dget? d k with _ | v
  · rfl
  · rw [containsKey, ho] at h
    exact Bool.noConfusion h

theorem exists_dget?_of_containsKey_true {V : Type} {d : AList V}
    {k : String} (h : containsKey d k = true) : ∃ v, dget? d k = some v := by
  rw [containsKey] at h
  exact Option.isSome_iff_exists.mp h

theorem dget_eq_ok_of_dget? {V : Type} {d : AList V} {k : String} {v : V}
    (h : dget? d k = some v) : dget d k = Except.ok v := by
  rw [dget, h]

theorem dget_eq_error_of_dget? {V : Type} {d : AList V} {k : String}
    (h : dget? d k = none) : dget d k = Except.error k := by
  rw [dget, h]

/-! The inner sector-totals loop computes exactly the filtered sums. -/

theorem foldl_sector_totals (l : List ScripDetails) (sector : String) :
    ∀ t : ℚ × ℚ × ℚ,
      l.foldl
        (fun t r =>
          if r.sectorName = sector then
            (t.1 + r.totalTrades, t.2.1 + r.totalTradeQuantity,
              t.2.2 + r.totalTurnover)
          else t)
        t =
      (t.1 + ((l.filter (fun r => r.sectorName == sector)).map
          (fun r => r.totalTrades)).sum,
       t.2.1 + ((l.filter (fun r => r.sectorName == sector)).map
          (fun r => r.totalTradeQuantity)).sum,
       t.2.2 + ((l.filter (fun r => r.sectorName == sector)).map
          (fun r => r.totalTurnover)).sum) := by
  induction l with
  | nil =>
      intro t
      simp
  | cons r l ih =>
      intro t
      rw [List.foldl_cons]
      by_cases hr : r.sectorName = sector
      · rw [if_pos hr, ih]
        have hfil : (r :: l).filter (fun r => r.sectorName == sector) =
            r :: l.filter (fun r => r.sectorName == sector) := by
          rw [List.filter_cons, if_pos (by simp [hr])]
        rw [hfil]
        simp only [List.map_cons, List.sum_cons]
        refine Prod.ext ?_ (Prod.ext ?_ ?_) <;> simp <;> ring
      · rw [if_neg hr, ih]
        have hfil : (r :: l).filter (fun r => r.sectorName == sector) =
            l.filter (fun r => r.sectorName == sector) := by
          rw [List.filter_cons, if_neg (by simp [hr])]
        rw [hfil]

/-- The totals of one sector are the sums over the scrips records of that
sector, in the order trades, trade quantity, turnover. -/
theorem sector_totals_eq (sd : AList ScripDetails) (sector : String) :
    sector_totals sd sector =
      ((((sd.map Prod.snd).filter (fun r => r.sectorName == sector)).map
          (fun r => r.totalTrades)).sum,
       (((sd.map Prod.snd).filter (fun r => r.sectorName == sector)).map
          (fun r => r.totalTradeQuantity)).sum,
       (((sd.map Prod.snd).filter (fun r => r.sectorName == sector)).map
          (fun r => r.totalTurnover)).sum) := by
  rw [sector_totals, foldl_sector_totals]
  simp

/-! Shape of a successful or failed sector record. -/

theorem sector_record_ok {sd : AList ScripDetails}
    {subidx : AList SubIndexEntry} {sector : String} {r : SectorDetails}
    (h : sector_record sd subidx sector = Except.ok r) :
    r.totalTrades = (sector_totals sd sector).1 ∧
    r.totalTradeQuantity = (sector_totals sd sector).2.1 ∧
    r.totalTurnover = (sector_totals sd sector).2.2 ∧
    r.sectorName = sector ∧
    ∃ label, dget? sector_mapper sector = some label ∧
      dget? subidx label = some r.index := by
  simp only [sector_record] at h
  rcases except_bind_ok.mp h with ⟨label, hlabel, h⟩
  rcases except_bind_ok.mp h with ⟨idx, hidx, h⟩
  have hr : r = { totalTrades := (sector_totals sd sector).1,
                  totalTradeQuantity := (sector_totals sd sector).2.1,
                  totalTurnover := (sector_totals sd sector).2.2,
                  index := idx, sectorName := sector } :=
    (Except.ok.inj h).symm
  subst hr
  refine ⟨rfl, rfl, rfl, rfl, label, ?_, ?_⟩
  · rcases ho : dget? sector_mapper sector with _ | v
    · rw [dget_eq_error_of_dget? ho] at hlabel
      exact Except.noConfusion hlabel
    · rw [dget_eq_ok_of_dget? ho] at hlabel
      rw [Except.ok.inj hlabel]
  · rcases ho : dget? subidx label with _ | v
    · rw [dget_eq_error_of_dget? ho] at hidx
      exact Except.noConfusion hidx
    · rw [dget_eq_ok_of_dget? ho] at hidx
      rw [Except.ok.inj hidx]

theorem sector_record_fails_of_unmapped {sd : AList ScripDetails}
    {subidx : AList SubIndexEntry} {sector : String}
    (h : containsKey sector_mapper sector = false) :
    ∀ r, sector_record sd subidx sector ≠ Except.ok r := by
  intro r hok
  rcases (sector_record_ok hok).2.2.2.2 with ⟨label, hlabel, -⟩
  rw [dget?_eq_none_of_containsKey_false h] at hlabel
  exact Option.noConfusion hlabel

/-! Shape of the successfully evaluated field expressions and of a
successfully built company record. -/

theorem turnover_field_ok {turnover : AList TurnoverEntry} {symbol : String}
    {q : ℚ} (h : turnover_field turnover symbol = Except.ok q) :
    q = (match dget? turnover symbol with
      | some o => o.turnover
      | none => 0) := by
  rw [turnover_field] at h
  rcases ho : dget? turnover symbol with _ | o
  · rw [if_neg (by rw [containsKey, ho]; exact Bool.false_ne_true)] at h
    exact (Except.ok.inj h).symm
  · rw [if_pos (by rw [containsKey, ho]; rfl)] at h
    rw [dget_eq_ok_of_dget? ho] at h
    rcases except_bind_ok.mp h with ⟨o2, ho2, h2⟩
    cases Except.ok.inj ho2
    exact (Except.ok.inj h2).symm

theorem trades_field_ok {transaction : AList TransactionEntry}
    {symbol : String} {q : ℚ}
    (h : trades_field transaction symbol = Except.ok q) :
    q = (match dget? transaction symbol with
      | some o => o.totalTrades
      | none => 0) := by
  rw [trades_field] at h
  rcases ho : dget? transaction symbol with _ | o
  · rw [if_neg (by rw [containsKey, ho]; exact Bool.false_ne_true)] at h
    exact (Except.ok.inj h).symm
  · rw [if_pos (by rw [containsKey, ho]; rfl)] at h
    rw [dget_eq_ok_of_dget? ho] at h
    rcases except_bind_ok.mp h with ⟨o2, ho2, h2⟩
    cases Except.ok.inj ho2
    exact (Except.ok.inj h2).symm

theorem changes_field_ok {gainers losers : AList GainerLoserEntry}
    {symbol : String} {ch : ℚ × ℚ × ℚ}
    (h : changes_field gainers losers symbol = Except.ok ch) :
    ch = (match dget? gainers symbol with
      | some g => (g.pointChange, g.percentageChange, g.ltp)
      | none =>
        match dget? losers symbol with
        | some lo => (lo.pointChange, lo.percentageChange, lo.ltp)
        | none => (0, 0, 0)) := by
  rw [changes_field] at h
  rcases hg : dget? gainers symbol with _ | g
  · rw [if_neg (by rw [containsKey, hg]; exact Bool.false_ne_true)] at h
    rcases hlo : dget? losers symbol with _ | lo
    · rw [if_neg (by rw [containsKey, hlo]; exact Bool.false_ne_true)] at h
      exact (Except.ok.inj h).symm
    · rw [if_pos (by rw [containsKey, hlo]; rfl)] at h
      rw [dget_eq_ok_of_dget? hlo] at h
      rcases except_bind_ok.mp h with ⟨x1, hx1, h⟩
      cases Except.ok.inj hx1
      rcases except_bind_ok.mp h with ⟨x2, hx2, h⟩
      cases Except.ok.inj hx2
      rcases except_bind_ok.mp h with ⟨x3, hx3, h⟩
      cases Except.ok.inj hx3
      exact (Except.ok.inj h).symm
  · rw [if_pos (by rw [containsKey, hg]; rfl)] at h
    rw [dget_eq_ok_of_dget? hg] at h
    rcases except_bind_ok.mp h with ⟨x1, hx1, h⟩
    cases Except.ok.inj hx1
    rcases except_bind_ok.mp h with ⟨x2, hx2, h⟩
    cases Except.ok.inj hx2
    rcases except_bind_ok.mp h with ⟨x3, hx3, h⟩
    cases Except.ok.inj hx3
    exact (Except.ok.inj h).symm

theorem build_company_details_ok {turnover : AList TurnoverEntry}
    {transaction : AList TransactionEntry} {trade : AList TradeEntry}
    {gainers losers : AList GainerLoserEntry} {symbol : String}
    {company : Company} {y : ScripDetails}
    (h : build_company_details turnover transaction trade gainers losers
      symbol company = Except.ok y) :
    y.symbol = symbol ∧
    y.sectorName = company.sectorName ∧
    y.totalTurnover = (match dget? turnover symbol with
      | some o => o.turnover
      | none => 0) ∧
    y.totalTrades = (match dget? transaction symbol with
      | some o => o.totalTrades
      | none => 0) ∧
    (y.pointChange, y.percentageChange, y.ltp) =
      (match dget? gainers symbol with
       | some g => (g.pointChange, g.percentageChange, g.ltp)
       | none =>
         match dget? losers symbol with
         | some lo => (lo.pointChange, lo.percentageChange, lo.ltp)
         | none => (0, 0, 0)) := by
  simp only [build_company_details] at h
  rcases except_bind_ok.mp h with ⟨tt, htt, h⟩
  rcases except_bind_ok.mp h with ⟨ttr, httr, h⟩
  rcases except_bind_ok.mp h with ⟨ttq, httq, h⟩
  rcases except_bind_ok.mp h with ⟨ch, hch, h⟩
  have hy : y = { symbol := symbol, sectorName := company.sectorName,
                  totalTurnover := tt, totalTrades := ttr,
                  totalTradeQuantity := ttq, pointChange := ch.1,
                  percentageChange := ch.2.1, ltp := ch.2.2 } :=
    (Except.ok.inj h).symm
  subst hy
  refine ⟨rfl, rfl, turnover_field_ok htt, trades_field_ok httr, ?_⟩
  rw [changes_field_ok hch]

/-! Decomposition of a successful aggregator run. -/

theorem agg_ok_parts {inp : AggInput} {out : AggOutput}
    (h : get_trade_turnover_transaction_subindices inp = Except.ok out) :
    scripsFold inp = Except.ok out.scripsDetails ∧
    sectorsFold inp out.scripsDetails = Except.ok out.sectorsDetails := by
  simp only [get_trade_turnover_transaction_subindices] at h
  rcases except_bind_ok.mp h with ⟨sd, hsd, h⟩
  rcases except_bind_ok.mp h with ⟨secd, hsecd, h⟩
  have hout : out = { scripsDetails := sd, sectorsDetails := secd } :=
    (Except.ok.inj h).symm
  subst hout
  exact ⟨hsd, hsecd⟩

/-- What a successful scrips loop guarantees: its keys are exactly the
company symbols, without duplicates, and every stored record is the
successful build for the company that won the symbol-keyed collapse. -/
theorem scrips_details_spec {inp : AggInput} {sd : AList ScripDetails}
    (h : scripsFold inp = Except.ok sd) :
    (∀ a, a ∈ keys sd ↔ a ∈ inp.companyList.map (fun c => c.symbol)) ∧
    (keys sd).Nodup ∧
    (∀ s r, dget? sd s = some r →
      ∃ c, dget? (companiesDict inp) s = some c ∧
        build_company_details (turnoverDict inp) (transactionDict inp)
          (tradeDict inp) (gainersDict inp) (losersDict inp) s c
          = Except.ok r) ∧
    (∀ p ∈ companiesDict inp, ∃ r,
      build_company_details (turnoverDict inp) (transactionDict inp)
        (tradeDict inp) (gainersDict inp) (losersDict inp) p.1 p.2
        = Except.ok r ∧ dget? sd p.1 = some r) := by
  rw [scripsFold] at h
  have hmain := foldlM_dinsert_get
    (fun p => build_company_details (turnoverDict inp) (transactionDict inp)
      (tradeDict inp) (gainersDict inp) (losersDict inp) p.1 p.2)
    Prod.fst (companiesDict inp) [] sd h
  rcases hmain with ⟨h1, h2, h3, h4⟩
  have hknd : ((companiesDict inp).map Prod.fst).Nodup :=
    nodup_keys_dictOfList _ _
  refine ⟨?_, ?_, ?_, ?_⟩
  · intro a
    rw [h2 a]
    have : (a ∈ keys (companiesDict inp)) ↔
        a ∈ inp.companyList.map (fun c => c.symbol) :=
      mem_keys_dictOfList _ _ a
    rw [keys] at this
    rw [this]
    simp [keys]
  · exact h3 List.nodup_nil
  · intro s r hr
    have hs : s ∈ keys (companiesDict inp) := by
      have := mem_keys_of_dget?_eq_some hr
      rcases (h2 s).mp this with hc | hc
      · simp [keys] at hc
      · exact hc
    rcases exists_dget?_of_containsKey_true
        (containsKey_iff_mem_keys.mpr hs) with ⟨c, hc⟩
    have hmem : (s, c) ∈ companiesDict inp := mem_of_dget?_eq_some hc
    rcases h4 hknd (s, c) hmem with ⟨y, hy, hys⟩
    rw [hr] at hys
    cases Option.some.inj hys
    exact ⟨c, hc, hy⟩
  · intro p hp
    rcases h4 hknd p hp with ⟨y, hy, hys⟩
    exact ⟨y, hy, hys⟩

/-- What a successful sectors loop guarantees: its keys are exactly the
distinct sector names of the collapsed company records, and every stored
record is the successful sector record for its key. -/
theorem sector_details_spec {inp : AggInput} {sd : AList ScripDetails}
    {secd : AList SectorDetails}
    (h : sectorsFold inp sd = Except.ok secd) :
    (∀ a, a ∈ keys secd ↔
      a ∈ ((companiesDict inp).map Prod.snd).map (fun c => c.sectorName)) ∧
    (keys secd).Nodup ∧
    (∀ sector rec, dget? secd sector = some rec →
      sector_record sd (subIndicesDict inp) sector = Except.ok rec) ∧
    (∀ sector ∈ sectorsOf inp, ∃ rec,
      sector_record sd (subIndicesDict inp) sector = Except.ok rec) := by
  rw [sectorsFold] at h
  have hmain := foldlM_dinsert_get
    (fun sector => sector_record sd (subIndicesDict inp) sector)
    (fun sector => sector) (sectorsOf inp) [] secd h
  rcases hmain with ⟨h1, h2, h3, h4⟩
  have hmapid : (sectorsOf inp).map (fun sector => sector) = sectorsOf inp :=
    List.map_id (sectorsOf inp)
  have hsnd : ((sectorsOf inp).map (fun sector => sector)).Nodup := by
    rw [hmapid]
    exact nodup_distinct _
  refine ⟨?_, ?_, ?_, ?_⟩
  · intro a
    rw [h2 a, hmapid]
    rw [sectorsOf, mem_distinct]
    simp [keys]
  · exact h3 List.nodup_nil
  · intro sector rec hrec
    have hs : sector ∈ sectorsOf inp := by
      have := mem_keys_of_dget?_eq_some hrec
      rcases (h2 sector).mp this with hc | hc
      · simp [keys] at hc
      · rw [hmapid] at hc
        exact hc
    rcases h4 hsnd sector hs with ⟨y, hy, hys⟩
    rw [hrec] at hys
    cases Option.some.inj hys
    exact hy
  · intro sector hs
    rcases h4 hsnd sector hs with ⟨y, hy, -⟩
    exact ⟨y, hy⟩

/-- A sectors loop over a list containing an unmapped sector name cannot
succeed. -/
theorem sectorsFold_fails_of_unmapped {inp : AggInput}
    {sd : AList ScripDetails} {sector : String}
    (hmem : sector ∈ sectorsOf inp)
    (hbad : containsKey sector_mapper sector = false) :
    ∀ secd, sectorsFold inp sd ≠ Except.ok secd := by
  intro secd h
  rw [sectorsFold] at h
  rcases foldlM_dinsert_ok
      (fun sector => sector_record sd (subIndicesDict inp) sector)
      (fun sector => sector) (sectorsOf inp) [] secd h sector hmem with ⟨r, hr⟩
  exact sector_record_fails_of_unmapped hbad r hr

/-! Concrete snapshots used to exercise the aggregator, with the outputs
it computes on them. -/

/-- Two Finance companies with turnovers 100 and 250 and no other feed
data. -/
def financeInput : AggInput :=
  { companyList := [⟨"FIN1", "Finance"⟩, ⟨"FIN2", "Finance"⟩]
    turnoverList := [⟨"FIN1", 100⟩, ⟨"FIN2", 250⟩]
    transactionList := []
    tradeList := []
    gainersList := []
    losersList := []
    priceVolumeList := []
    subIndicesList := [⟨"Finance Index", 42⟩] }

/-- The aggregator output on financeInput. -/
def financeOutput : AggOutput :=
  { scripsDetails :=
      [("FIN1", { symbol := "FIN1", sectorName := "Finance",
                  totalTurnover := 100, totalTrades := 0,
                  totalTradeQuantity := 0, pointChange := 0,
                  percentageChange := 0, ltp := 0 }),
       ("FIN2", { symbol := "FIN2", sectorName := "Finance",
                  totalTurnover := 250, totalTrades := 0,
                  totalTradeQuantity := 0, pointChange := 0,
                  percentageChange := 0, ltp := 0 })]
    sectorsDetails :=
      [("Finance", { totalTrades := 0, totalTradeQuantity := 0,
                     totalTurnover := 350,
                     index := { index := "Finance Index", currentValue := 42 },
                     sectorName := "Finance" })] }

/-- One company whose symbol appears in the trade-volume leaders feed
with 5 shares traded, but in no other feed. -/
def tradeGuardInput : AggInput :=
  { companyList := [⟨"AAA", "Finance"⟩]
    turnoverList := []
    transactionList := []
    tradeList := [⟨"AAA", 5⟩]
    gainersList := []
    losersList := []
    priceVolumeList := []
    subIndicesList := [⟨"Finance Index", 42⟩] }

/-- The aggregator output on tradeGuardInput: the traded quantity comes
out as 0, not 5, because the guard tests the transaction dict. -/
def tradeGuardOutput : AggOutput :=
  { scripsDetails :=
      [("AAA", { symbol := "AAA", sectorName := "Finance",
                 totalTurnover := 0, totalTrades := 0,
                 totalTradeQuantity := 0, pointChange := 0,
                 percentageChange := 0, ltp := 0 })]
    sectorsDetails :=
      [("Finance", { totalTrades := 0, totalTradeQuantity := 0,
                     totalTurnover := 0,
                     index := { index := "Finance Index", currentValue := 42 },
                     sectorName := "Finance" })] }

/-- One company whose symbol appears in the transaction leaders but not
in the trade-volume leaders. -/
def keyErrorInput : AggInput :=
  { companyList := [⟨"AAA", "Finance"⟩]
    turnoverList := []
    transactionList := [⟨"AAA", 7⟩]
    tradeList := []
    gainersList := []
    losersList := []
    priceVolumeList := []
    subIndicesList := [⟨"Finance Index", 42⟩] }

/-- A company list in which a later duplicate of the symbol AAA
overwrites the earlier record carrying an unmapped sector name. -/
def dupSectorInput : AggInput :=
  { companyList := [⟨"AAA", "Weird Sector"⟩, ⟨"AAA", "Finance"⟩]
    turnoverList := []
    transactionList := []
    tradeList := []
    gainersList := []
    losersList := []
    priceVolumeList := []
    subIndicesList := [⟨"Finance Index", 42⟩] }

/-- The aggregator output on dupSectorInput: it succeeds, and the
unmapped sector name has vanished from the result. -/
def dupSectorOutput : AggOutput :=
  { scripsDetails :=
      [("AAA", { symbol := "AAA", sectorName := "Finance",
                 totalTurnover := 0, totalTrades := 0,
                 totalTradeQuantity := 0, pointChange := 0,
                 percentageChange := 0, ltp := 0 })]
    sectorsDetails :=
      [("Finance", { totalTrades := 0, totalTradeQuantity := 0,
                     totalTurnover := 0,
                     index := { index := "Finance Index", currentValue := 42 },
                     sectorName := "Finance" })] }

/-- One company with an unmapped sector name and no duplicate to shadow
it. -/
def badSectorInput : AggInput :=
  { companyList := [⟨"AAA", "Weird Sector"⟩]
    turnoverList := []
    transactionList := []
    tradeList := []
    gainersList := []
    losersList := []
    priceVolumeList := []
    subIndicesList := [] }

/-- One company present in both the gainers and the losers feeds with
different values. -/
def bothSidesInput : AggInput :=
  { companyList := [⟨"AAA", "Finance"⟩]
    turnoverList := []
    transactionList := []
    tradeList := []
    gainersList := [⟨"AAA", 9, 8, 700⟩]
    losersList := [⟨"AAA", -9, -8, 100⟩]
    priceVolumeList := []
    subIndicesList := [⟨"Finance Index", 42⟩] }

/-- The aggregator output on bothSidesInput: the gainers values won. -/
def bothSidesOutput : AggOutput :=
  { scripsDetails :=
      [("AAA", { symbol := "AAA", sectorName := "Finance",
                 totalTurnover := 0, totalTrades := 0,
                 totalTradeQuantity := 0, pointChange := 9,
                 percentageChange := 8, ltp := 700 })]
    sectorsDetails :=
      [("Finance", { totalTrades := 0, totalTradeQuantity := 0,
                     totalTurnover := 0,
                     index := { index := "Finance Index", currentValue := 42 },
                     sectorName := "Finance" })] }

theorem financeInput_eval :
    get_trade_turnover_transaction_subindices financeInput
      = Except.ok financeOutput := by
  simp +decide [get_trade_turnover_transaction_subindices, scripsFold,
    sectorsFold, sectorsOf, companiesDict, turnoverDict, transactionDict,
    tradeDict, gainersDict, losersDict, priceVolDict, subIndicesDict,
    financeInput, financeOutput, dictOfList, build_company_details,
    turnover_field, trades_field, trade_quantity_field, changes_field,
    sector_record, sector_totals, sector_mapper, AList.dinsert,
    AList.dget?, AList.dget, AList.containsKey, distinct,
    List.foldlM_cons, List.foldlM_nil, bind, Except.bind, pure,
    Except.pure]
  norm_num

theorem tradeGuardInput_eval :
    get_trade_turnover_transaction_subindices tradeGuardInput
      = Except.ok tradeGuardOutput := by
  simp +decide [get_trade_turnover_transaction_subindices, scripsFold,
    sectorsFold, sectorsOf, companiesDict, turnoverDict, transactionDict,
    tradeDict, gainersDict, losersDict, priceVolDict, subIndicesDict,
    tradeGuardInput, tradeGuardOutput, dictOfList, build_company_details,
    turnover_field, trades_field, trade_quantity_field, changes_field,
    sector_record, sector_totals, sector_mapper, AList.dinsert,
    AList.dget?, AList.dget, AList.containsKey, distinct,
    List.foldlM_cons, List.foldlM_nil, bind, Except.bind, pure,
    Except.pure]

theorem dupSectorInput_eval :
    get_trade_turnover_transaction_subindices dupSectorInput
      = Except.ok dupSectorOutput := by
  simp +decide [get_trade_turnover_transaction_subindices, scripsFold,
    sectorsFold, sectorsOf, companiesDict, turnoverDict, transactionDict,
    tradeDict, gainersDict, losersDict, priceVolDict, subIndicesDict,
    dupSectorInput, dupSectorOutput, dictOfList, build_company_details,
    turnover_field, trades_field, trade_quantity_field, changes_field,
    sector_record, sector_totals, sector_mapper, AList.dinsert,
    AList.dget?, AList.dget, AList.containsKey, distinct,
    List.foldlM_cons, List.foldlM_nil, bind, Except.bind, pure,
    Except.pure]

theorem bothSidesInput_eval :
    get_trade_turnover_transaction_subindices bothSidesInput
      = Except.ok bothSidesOutput := by
  simp +decide [get_trade_turnover_transaction_subindices, scripsFold,
    sectorsFold, sectorsOf, companiesDict, turnoverDict, transactionDict,
    tradeDict, gainersDict, losersDict, priceVolDict, subIndicesDict,
    bothSidesInput, bothSidesOutput, dictOfList, build_company_details,
    turnover_field, trades_field, trade_quantity_field, changes_field,
    sector_record, sector_totals, sector_mapper, AList.dinsert,
    AList.dget?, AList.dget, AList.containsKey, distinct,
    List.foldlM_cons, List.foldlM_nil, bind, Except.bind, pure,
    Except.pure]

/-! Claim theorems. -/

/-- C1: the claim says totalTradeQuantity is the trade-volume-leaders
value whenever the symbol is in the trade-volume leaders collection and
0 otherwise.  On tradeGuardInput the symbol AAA is in the trade-volume
leaders with 5 shares traded, yet the built record carries
totalTradeQuantity 0, because lines 443-445 guard the trade lookup by
membership in the transaction dict; the code diverges from the claim
exactly there. -/
theorem c1_trade_quantity_wrong_guard_eval :
    containsKey (tradeDict tradeGuardInput) "AAA" = true ∧
    dget? (tradeDict tradeGuardInput) "AAA"
      = some { symbol := "AAA", shareTraded := 5 } ∧
    get_trade_turnover_transaction_subindices tradeGuardInput
      = Except.ok tradeGuardOutput ∧
    (dget? tradeGuardOutput.scripsDetails "AAA").map
      (fun r => r.totalTradeQuantity) = some 0 :=
  ⟨rfl, rfl, tradeGuardInput_eval, rfl⟩

/-- C2: the claim says a None market-depth lookup is surfaced as a
404-equivalent naming the symbol.  The HTTPException(404) raised on line
382 is caught by the except-Exception clause on line 386 and re-raised
as a 500, so the handler answers 500, not 404. -/
theorem c2_market_depth_none_is_500 :
    get_market_depth (α := ℚ) "NABIL" (Except.ok none) =
      HandlerOutcome.httpError 500
        "Error fetching market depth: 404: Market depth for NABIL not available" ∧
    statusOf (get_market_depth (α := ℚ) "NABIL" (Except.ok none))
      = some 500 :=
  ⟨rfl, rfl⟩

/-- C3 counterexample: a generic upstream failure (neither a rate-limit
rejection, nor a not-found, nor malformed data) on the daily scrip price
graph route is surfaced with status 404, not the 500 the claim
prescribes for both symbol routes. -/
theorem c3_counterexample :
    statusOf (get_daily_scrip_price_graph (α := ℚ) "NABIL"
      (Except.error (PyExc.other "connection error"))) = some 404 ∧
    detailOf (get_daily_scrip_price_graph (α := ℚ) "NABIL"
      (Except.error (PyExc.other "connection error")))
      = some "Data for symbol NABIL not found: connection error" :=
  ⟨rfl, rfl⟩

/-- C3 (amended): only the market depth route surfaces a generic
upstream failure as a 500 whose detail includes the exception message;
the daily scrip price graph route surfaces every upstream failure,
whatever its kind, as a 404 whose detail includes the exception
message. -/
theorem c3_amended_generic_failures (α : Type) (symbol msg : String)
    (e : PyExc) :
    get_market_depth (α := α) symbol (Except.error (PyExc.other msg)) =
      HandlerOutcome.httpError 500 ("Error fetching market depth: " ++ msg) ∧
    get_daily_scrip_price_graph (α := α) symbol (Except.error e) =
      HandlerOutcome.httpError 404
        ("Data for symbol " ++ symbol ++ " not found: " ++ excStr e) :=
  ⟨rfl, rfl⟩

/-- C9: with the symbol AAA in the transaction leaders but not in the
trade-volume leaders, the whole aggregation fails with KeyError("AAA"),
because the trade subscript on line 444 is guarded by transaction
membership on line 444 rather than trade membership. -/
theorem c9_trade_lookup_keyerror :
    get_trade_turnover_transaction_subindices keyErrorInput
      = Except.error "AAA" ∧
    containsKey (transactionDict keyErrorInput) "AAA" = true ∧
    containsKey (tradeDict keyErrorInput) "AAA" = false :=
  ⟨rfl, rfl, rfl⟩

/-- C4 counterexample: dupSectorInput holds a company whose sectorName
Weird Sector is not a key of sector_mapper, yet the request succeeds,
because a later company with the same symbol overwrote it during the
symbol-keyed collapse, so its sector is never looked up. -/
theorem c4_counterexample :
    dupSectorInput.companyList.map (fun c => c.sectorName)
      = ["Weird Sector", "Finance"] ∧
    containsKey sector_mapper "Weird Sector" = false ∧
    get_trade_turnover_transaction_subindices dupSectorInput
      = Except.ok dupSectorOutput :=
  ⟨rfl, rfl, dupSectorInput_eval⟩

/-- C4 (amended): when the company symbols are pairwise distinct, a
company whose sectorName is not a key of the fixed sector-to-sub-index
table makes the whole request fail with a lookup error; no partial
result is returned. -/
theorem c4_unmapped_sector_fails (inp : AggInput) (c : Company)
    (hnd : (inp.companyList.map (fun c => c.symbol)).Nodup)
    (hc : c ∈ inp.companyList)
    (hbad : containsKey sector_mapper c.sectorName = false) :
    (get_trade_turnover_transaction_subindices inp).toOption = none := by
  rcases ho : get_trade_turnover_transaction_subindices inp with e | out
  · rfl
  · exfalso
    rcases agg_ok_parts ho with ⟨-, hsecd⟩
    have hmem : c.sectorName ∈ sectorsOf inp := by
      rw [sectorsOf, mem_distinct]
      have hco : companiesDict inp
          = inp.companyList.map (fun x => (x.symbol, x)) :=
        dictOfList_of_nodup _ _ hnd
      rw [hco, List.map_map, List.map_map]
      exact List.mem_map_of_mem _ hc
    exact sectorsFold_fails_of_unmapped hmem hbad _ hsecd

/-- C4 witness: on badSectorInput, whose single company carries the
unmapped sector name, the aggregator indeed produces no result. -/
theorem c4_unmapped_sector_fails_witness :
    (get_trade_turnover_transaction_subindices badSectorInput).toOption
      = none :=
  c4_unmapped_sector_fails badSectorInput ⟨"AAA", "Weird Sector"⟩
    (by simp [badSectorInput]) (by simp [badSectorInput]) rfl

/-- C5: whenever the aggregator returns, every sector record's
totalTrades, totalTradeQuantity and totalTurnover equal the sums of the
corresponding fields over exactly the symbol records whose sectorName is
that sector. -/
theorem c5_sector_totals_are_sums (inp : AggInput) (out : AggOutput)
    (h : get_trade_turnover_transaction_subindices inp = Except.ok out)
    (sector : String) (rec : SectorDetails)
    (hrec : dget? out.sectorsDetails sector = some rec) :
    rec.totalTrades = (((out.scripsDetails.map Prod.snd).filter
      (fun r => r.sectorName == sector)).map (fun r => r.totalTrades)).sum ∧
    rec.totalTradeQuantity = (((out.scripsDetails.map Prod.snd).filter
      (fun r => r.sectorName == sector)).map
        (fun r => r.totalTradeQuantity)).sum ∧
    rec.totalTurnover = (((out.scripsDetails.map Prod.snd).filter
      (fun r => r.sectorName == sector)).map (fun r => r.totalTurnover)).sum := by
  rcases agg_ok_parts h with ⟨-, hsecd⟩
  rcases sector_details_spec hsecd with ⟨-, -, h3, -⟩
  rcases sector_record_ok (h3 sector rec hrec) with ⟨ht, hq, hto, -, -⟩
  rw [ht, hq, hto, sector_totals_eq]
  exact ⟨rfl, rfl, rfl⟩

/-- C5 witness: on financeInput, the Finance sector record carries
turnover 350, the sum of the turnovers 100 and 250 of its two member
symbols. -/
theorem c5_sector_totals_are_sums_witness :
    (dget? financeOutput.sectorsDetails "Finance").map
      (fun rec => rec.totalTurnover) = some 350 ∧
    (((financeOutput.scripsDetails.map Prod.snd).filter
      (fun r => r.sectorName == "Finance")).map
        (fun r => r.totalTurnover)).sum = 350 := by
  have h := c5_sector_totals_are_sums financeInput financeOutput
    financeInput_eval "Finance"
    { totalTrades := 0, totalTradeQuantity := 0, totalTurnover := 350,
      index := { index := "Finance Index", currentValue := 42 },
      sectorName := "Finance" } rfl
  refine ⟨rfl, ?_⟩
  rw [← h.2.2]

/-- C6: whenever the aggregator returns, every symbol record's
pointChange, percentageChange and ltp come from the gainers dict when
the symbol is a key there, else from the losers dict when a key there,
else are all 0; a symbol present in both dicts gets the gainers
values. -/
theorem c6_gainers_priority (inp : AggInput) (out : AggOutput)
    (h : get_trade_turnover_transaction_subindices inp = Except.ok out)
    (s : String) (r : ScripDetails)
    (hr : dget? out.scripsDetails s = some r) :
    (r.pointChange, r.percentageChange, r.ltp) =
      (match dget? (gainersDict inp) s with
       | some g => (g.pointChange, g.percentageChange, g.ltp)
       | none =>
         match dget? (losersDict inp) s with
         | some lo => (lo.pointChange, lo.percentageChange, lo.ltp)
         | none => (0, 0, 0)) := by
  rcases agg_ok_parts h with ⟨hsd, -⟩
  rcases scrips_details_spec hsd with ⟨-, -, h3, -⟩
  rcases h3 s r hr with ⟨c, -, hbuild⟩
  exact (build_company_details_ok hbuild).2.2.2.2

/-- C6 witness: on bothSidesInput the symbol AAA sits in both the
gainers dict (9, 8, 700) and the losers dict (-9, -8, 100), and its
record carries the gainers values. -/
theorem c6_gainers_priority_witness :
    dget? (gainersDict bothSidesInput) "AAA"
      = some { symbol := "AAA", pointChange := 9, percentageChange := 8,
               ltp := 700 } ∧
    dget? (losersDict bothSidesInput) "AAA"
      = some { symbol := "AAA", pointChange := -9, percentageChange := -8,
               ltp := 100 } ∧
    ((dget? bothSidesOutput.scripsDetails "AAA").map
      (fun r => (r.pointChange, r.percentageChange, r.ltp)))
      = some (9, 8, 700) := by
  refine ⟨rfl, rfl, ?_⟩
  have h := c6_gainers_priority bothSidesInput bothSidesOutput
    bothSidesInput_eval "AAA"
    { symbol := "AAA", sectorName := "Finance", totalTurnover := 0,
      totalTrades := 0, totalTradeQuantity := 0, pointChange := 9,
      percentageChange := 8, ltp := 700 } rfl
  exact congrArg some h

/-- C10 counterexample: the company list of dupSectorInput carries the
sector name Weird Sector, yet the aggregator succeeds and the keys of
its sectorsDetails are only Finance, because the duplicate symbol AAA
collapsed away the record carrying Weird Sector; so the keys are not the
distinct sectorName values of the company list. -/
theorem c10_counterexample :
    dupSectorInput.companyList.map (fun c => c.sectorName)
      = ["Weird Sector", "Finance"] ∧
    get_trade_turnover_transaction_subindices dupSectorInput
      = Except.ok dupSectorOutput ∧
    keys dupSectorOutput.sectorsDetails = ["Finance"] ∧
    (keys dupSectorOutput.sectorsDetails).contains "Weird Sector" = false :=
  ⟨rfl, dupSectorInput_eval, rfl, rfl⟩

/-- C10 (amended): whenever the aggregator returns, the keys of its
scripsDetails are exactly the symbols of the company list without
duplicates; each record is keyed by its own symbol and carries the
sectorName of the last company in the list with that symbol (the winner
of the last-write-wins collapse); and the keys of sectorsDetails are
exactly the distinct sectorName values of the collapsed company dict
(not of the raw company list). -/
theorem c10_output_keys (inp : AggInput) (out : AggOutput)
    (h : get_trade_turnover_transaction_subindices inp = Except.ok out) :
    ((keys out.scripsDetails).Nodup ∧
     ∀ a, a ∈ keys out.scripsDetails ↔
       a ∈ inp.companyList.map (fun c => c.symbol)) ∧
    (∀ s r, dget? out.scripsDetails s = some r →
      ∃ c, inp.companyList.reverse.find? (fun c => c.symbol == s) = some c ∧
        r.symbol = s ∧ r.sectorName = c.sectorName) ∧
    ((keys out.sectorsDetails).Nodup ∧
     ∀ a, a ∈ keys out.sectorsDetails ↔
       a ∈ ((companiesDict inp).map Prod.snd).map (fun c => c.sectorName)) := by
  rcases agg_ok_parts h with ⟨hsd, hsecd⟩
  rcases scrips_details_spec hsd with ⟨k1, k2, h3, -⟩
  rcases sector_details_spec hsecd with ⟨k3, k4, -, -⟩
  refine ⟨⟨k2, k1⟩, ?_, k4, k3⟩
  intro s r hr
  rcases h3 s r hr with ⟨c, hc, hbuild⟩
  rw [companiesDict, dget?_dictOfList] at hc
  rcases build_company_details_ok hbuild with ⟨hsym, hsec, -⟩
  exact ⟨c, hc, hsym, hsec⟩

/-- C10 witness: on financeInput the symbol FIN1 is a key of the
scrips details exactly because it is a company symbol, and the sector
keys carry no duplicates. -/
theorem c10_output_keys_witness :
    ("FIN1" ∈ keys financeOutput.scripsDetails ↔
      "FIN1" ∈ financeInput.companyList.map (fun c => c.symbol)) ∧
    (keys financeOutput.sectorsDetails).Nodup := by
  have h := c10_output_keys financeInput financeOutput financeInput_eval
  exact ⟨h.1.2 "FIN1", h.2.2.1⟩

/-- C7: the middleware consults take_token exactly once per request (the
bucket it leaves behind is the one produced by a single take_token
call); when the call yields false the request is answered with the fixed
429 rate-limit error and the outcome does not depend on the handler, and
when it yields true the handler runs on the unchanged request and its
result is returned. -/
theorem c7_dispatch_rate_limit {B R A : Type} (take : B → Bool × B)
    (b : B) (handler : R → A) (req : R) :
    (dispatch take b handler req).2 = (take b).2 ∧
    ((take b).1 = true →
      (dispatch take b handler req).1 = HandlerOutcome.ok (handler req)) ∧
    ((take b).1 = false →
      (dispatch take b handler req).1 =
        HandlerOutcome.httpError 429 "Rate limit exceeded" ∧
      ∀ other : R → A,
        (dispatch take b other req).1 = (dispatch take b handler req).1) := by
  refine ⟨?_, ?_, ?_⟩
  · by_cases hd : (take b).1 = true
    · simp only [dispatch, if_pos hd]
    · simp only [dispatch, if_neg hd]
  · intro ht
    simp only [dispatch, if_pos ht]
  · intro hf
    have hnt : ¬ (take b).1 = true := by
      rw [hf]
      exact Bool.false_ne_true
    exact ⟨by simp only [dispatch, if_neg hnt],
      fun other => by simp only [dispatch, if_neg hnt]⟩

/-- C7 witness: with the line 106 bucket a first request at clock 0 is
served by the handler, and with a drained bucket the request is rejected
with the fixed 429 error. -/
theorem c7_dispatch_rate_limit_witness :
    (dispatch (take_token 0) bucket (fun flag : Bool => !flag) false).1
      = HandlerOutcome.ok true ∧
    (dispatch (take_token 0) drainedBucket
      (fun flag : Bool => !flag) false).1
      = HandlerOutcome.httpError 429 "Rate limit exceeded" := by
  constructor
  · exact (c7_dispatch_rate_limit (take_token 0) bucket
      (fun flag : Bool => !flag) false).2.1
      (by norm_num [take_token, bucket, min_def])
  · exact ((c7_dispatch_rate_limit (take_token 0) drainedBucket
      (fun flag : Bool => !flag) false).2.2
      (by norm_num [take_token, drainedBucket, min_def])).1

/-- C8: starting from the full line 106 bucket (capacity 4) with zero
elapsed time between calls, exactly four take_token calls return true
and the fifth returns false; every observed state keeps its token count
between 0 and the capacity; and a single take_token call preserves the
invariant 0 ≤ tokens ≤ capacity for any bucket state with a nonnegative
refill rate and a clock that does not run backwards. -/
theorem c8_token_bucket_burst :
    (takeBurst 0 bucket 5).1 = [true, true, true, true, false] ∧
    ((takeBurst 0 bucket 5).2.map (fun s => s.tokens)) = [3, 2, 1, 0, 0] ∧
    (∀ s ∈ (takeBurst 0 bucket 5).2,
      0 ≤ s.tokens ∧ s.tokens ≤ s.capacity) ∧
    (∀ (now : ℚ) (b : TokenBucket), 0 ≤ b.refill_rate →
      b.last_refill ≤ now → 0 ≤ b.tokens → b.tokens ≤ b.capacity →
      (take_token now b).2.capacity = b.capacity ∧
      0 ≤ (take_token now b).2.tokens ∧
      (take_token now b).2.tokens ≤ (take_token now b).2.capacity) := by
  refine ⟨?_, ?_, ?_, ?_⟩
  · norm_num [takeBurst, take_token, bucket, min_def]
  · norm_num [takeBurst, take_token, bucket, min_def]
  · norm_num [takeBurst, take_token, bucket, min_def, List.forall_mem_cons]
  · intro now b hrate hclock h0 hcap
    have helapsed : 0 ≤ now - b.last_refill := by linarith
    have hprod : 0 ≤ (now - b.last_refill) * b.refill_rate :=
      mul_nonneg helapsed hrate
    have hrefill : 0 ≤ b.tokens + (now - b.last_refill) * b.refill_rate := by
      linarith
    have hcap0 : 0 ≤ b.capacity := le_trans h0 hcap
    have hminle : min b.capacity
        (b.tokens + (now - b.last_refill) * b.refill_rate) ≤ b.capacity :=
      min_le_left _ _
    have hmin0 : 0 ≤ min b.capacity
        (b.tokens + (now - b.last_refill) * b.refill_rate) :=
      le_min hcap0 hrefill
    by_cases hb : 1 ≤ min b.capacity
        (b.tokens + (now - b.last_refill) * b.refill_rate)
    · refine ⟨?_, ?_, ?_⟩
      · simp only [take_token, if_pos hb]
      · simp only [take_token, if_pos hb]
        linarith
      · simp only [take_token, if_pos hb]
        linarith
    · refine ⟨?_, ?_, ?_⟩
      · simp only [take_token, if_neg hb]
      · simp only [take_token, if_neg hb]
        exact hmin0
      · simp only [take_token, if_neg hb]
        exact hminle

/-- C8 witness: one take_token call on a half-full bucket one second
after its last refill keeps the token count within the bounds. -/
theorem c8_token_bucket_burst_witness :
    (take_token 1 halfBucket).2.capacity = 4 ∧
    0 ≤ (take_token 1 halfBucket).2.tokens ∧
    (take_token 1 halfBucket).2.tokens
      ≤ (take_token 1 halfBucket).2.capacity := by
  have h := c8_token_bucket_burst.2.2.2 1 halfBucket
    (by norm_num [halfBucket]) (by norm_num [halfBucket])
    (by norm_num [halfBucket]) (by norm_num [halfBucket])
  exact ⟨h.1, h.2.1, h.2.2⟩

end Nepse
